import Mathlib

/-
  Shallow embedding of the flagwaver flag construction and simulation core,
  taken from src/src/assets/js/flagwaver/helpers/buildRectangularFlagFromMedia.js.
  That file holds both the buildRectangularFlagFromMedia helper and the Flag
  class together with its module-level pin helper.

  JS numbers are embedded as rationals.  Division on the rationals is total
  with x / 0 = 0; the one place where the JS value would be non-finite
  (division by a zero rest distance) is refined separately by jsSegmentCount,
  which reports a non-finite result as Option.none.

  The Cloth, Particle and FixedConstraint classes of the repository are not
  under src/; where a claim depends on them they are either taken as
  parameters or modelled from the spec, as indicated by the doc comments.
-/

namespace FlagWaver

/-- Components of a JS Vector3 as used by the particle fields. -/
abbrev Vec3 : Type := ℚ × ℚ × ℚ

/-- Componentwise vector addition. -/
def vadd (a b : Vec3) : Vec3 := (a.1 + b.1, a.2.1 + b.2.1, a.2.2 + b.2.2)

/-- Componentwise vector subtraction. -/
def vsub (a b : Vec3) : Vec3 := (a.1 - b.1, a.2.1 - b.2.1, a.2.2 - b.2.2)

/-- Componentwise scaling of a vector. -/
def vscale (t : ℚ) (a : Vec3) : Vec3 := (t * a.1, t * a.2.1, t * a.2.2)

/-- Grid coordinate of a particle: the JS code identifies particles through
cloth.particleAt applied to an x index and a y index, so a particle reference
is embedded as its pair of grid indices. -/
abbrev GridIx : Type := ℕ × ℕ

/-- Modelled from the spec: the Particle class is not under src/.  Section 3
of the spec gives a particle a position, a previous position and an original
rest position.  Only these three fields are read or written by the Flag code
under src/. -/
structure Particle where
  position : Vec3
  previous : Vec3
  original : Vec3
deriving DecidableEq

/-- The mutable per-particle state of the cloth, indexed by grid coordinate. -/
abbrev ClothState : Type := GridIx → Particle

/-- One entry of Flag.lengthConstraints: a FixedConstraint built from two
particle references and a rest distance (source lines 427-431 and 438-442). -/
structure LengthConstraint where
  p1 : GridIx
  p2 : GridIx
  restDistance : ℚ
deriving DecidableEq

/-- The Side string constants from ../constants.  The extra value other
stands for any unrecognized edge value, which the JS switch statements send
to their default branch. -/
inductive Side where
  | top
  | left
  | bottom
  | right
  | other
deriving DecidableEq

/-- The Hoisting string constants from ../constants. -/
inductive Hoisting where
  | dexter
  | sinister
deriving DecidableEq

/-- The arguments passed to the Cloth constructor by buildCloth
(source lines 220-225). -/
structure Cloth where
  xSegments : ℤ
  ySegments : ℤ
  restDistance : ℚ
  totalMass : ℚ
deriving DecidableEq

/-- Source buildCloth (lines 217-226): segment counts are the rounded
quotients of the physical extents by the rest distance, clamped from below
by 1, and the total mass handed to the cloth is mass times width times
height. -/
def buildCloth (width height mass restDistance : ℚ) : Cloth :=
  { xSegments := max 1 (round (width / restDistance))
    ySegments := max 1 (round (height / restDistance))
    restDistance := restDistance
    totalMass := mass * width * height }

/-- Refinement of the segment computation inside buildCloth that tracks the
JS float semantics at a zero rest distance: there the JS division yields
Infinity or NaN, which Math.round and Math.max propagate, so the Cloth
constructor receives a non-finite segment count.  none models that
non-finite result; for a nonzero rest distance the value agrees with the
rational computation of buildCloth. -/
def jsSegmentCount (extent restDistance : ℚ) : Option ℤ :=
  if restDistance = 0 then none
  else some (max 1 (round (extent / restDistance)))

/-- Modelled from the spec: the Cloth class is not under src/.  Section 3 of
the spec states that the sheet mass is divided across a grid of
(xSegments + 1) times (ySegments + 1) particles. -/
def clothParticleCount (c : Cloth) : ℤ := (c.xSegments + 1) * (c.ySegments + 1)

/-- A width or height entry of the options object: the string auto, a
numeric value, or anything else (isNumeric false and not auto). -/
inductive SizeOpt where
  | auto
  | num (value : ℚ)
  | invalid
deriving DecidableEq

/-- The option fields of buildRectangularFlagFromMedia that reach the solver,
after merging with the module defaults (source lines 12-18) and with
Flag.defaults (source lines 384-394) for mass and restDistance.  The
resolution option only affects texture scaling and is omitted. -/
structure BuildOptions where
  width : SizeOpt
  height : SizeOpt
  hoisting : Hoisting
  orientation : Side
  mass : ℚ
  restDistance : ℚ
deriving DecidableEq

/-- Flag.defaults.width (source line 385). -/
def flagDefaultWidth : ℚ := 1.8

/-- Flag.defaults.height (source line 386). -/
def flagDefaultHeight : ℚ := 1.2

/-- Maximum size of flag (source line 10). -/
def maxSize : ℚ := 500

/-- Source computeSizeFromElement (lines 21-57): derive missing sizes from
the aspect ratio of the media element, whose resolved pixel width and height
are given as rationals. -/
def computeSizeFromElement (elementWidth elementHeight : ℚ)
    (ow oh : SizeOpt) : SizeOpt × SizeOpt :=
  match ow, oh with
  | SizeOpt.auto, SizeOpt.auto =>
      if elementWidth < elementHeight then
        (SizeOpt.num flagDefaultHeight,
         SizeOpt.num (flagDefaultHeight * elementHeight / elementWidth))
      else
        (SizeOpt.num (flagDefaultHeight * elementWidth / elementHeight),
         SizeOpt.num flagDefaultHeight)
  | SizeOpt.auto, SizeOpt.num hval =>
      (SizeOpt.num (hval * elementWidth / elementHeight), SizeOpt.num hval)
  | SizeOpt.num wval, SizeOpt.auto =>
      (SizeOpt.num wval, SizeOpt.num (wval * elementHeight / elementWidth))
  | _, _ => (ow, oh)

/-- Source computeSize (lines 60-79): resolve a numeric width and height,
downscaling so neither exceeds maxSize, and falling back to Flag.defaults
when either entry is still not numeric.  The options object is passed as
the two fields the function reads, its width and height entries. -/
def computeSize (element : Option (ℚ × ℚ)) (ow oh : SizeOpt) : ℚ × ℚ :=
  let wh : SizeOpt × SizeOpt :=
    match element with
    | some e => computeSizeFromElement e.1 e.2 ow oh
    | none => (ow, oh)
  match wh with
  | (SizeOpt.num w, SizeOpt.num h) =>
      let scale := min 1 (maxSize / max w h)
      (w * scale, h * scale)
  | _ => (flagDefaultWidth, flagDefaultHeight)

/-- Source isVertical (lines 82-87). -/
def isVertical (opts : BuildOptions) : Bool :=
  opts.orientation = Side.left ∨ opts.orientation = Side.right

/-- The width and height fields put into the flag arguments by
computeFlagArgs (source lines 152-169): for a vertical orientation the two
resolved sizes are swapped.  The texture field built there belongs to the
excluded rendering layer and is omitted. -/
def computeFlagSize (element : Option (ℚ × ℚ)) (opts : BuildOptions) : ℚ × ℚ :=
  let wh := computeSize element opts.width opts.height
  if isVertical opts then (wh.2, wh.1) else wh

/-- The cloth built by buildRectangularFlagFromMedia (source lines 180-192):
the Flag constructor (line 371) passes the merged settings to buildCloth. -/
def buildFlagCloth (element : Option (ℚ × ℚ)) (opts : BuildOptions) : Cloth :=
  let wh := computeFlagSize element opts
  buildCloth wh.1 wh.2 opts.mass opts.restDistance

/-- Source ensureValidSpacing (lines 289-295): a numeric spacing of at least
1 is floored, anything else falls back to the default spacing 1.  A
non-numeric spacing value is modelled as none. -/
def ensureValidSpacing (spacing : Option ℚ) : ℤ :=
  match spacing with
  | some q => if 1 ≤ q then Rat.floor q else 1
  | none => 1

/-- Index sequence of the JS loop starting at 0, bounded inclusively by
limit, stepping by spacing.  Faithful for spacing at least 1, which
ensureValidSpacing guarantees at every call site. -/
def strideIndices (limit spacing : ℕ) : List ℕ :=
  (List.range (limit / spacing + 1)).map (fun k => k * spacing)

/-- Source pinEdge (lines 297-333): push every spacing-th particle of the
chosen edge onto the pins array; the default branch of the switch pushes
nothing. -/
def pinEdge (xSegments ySegments : ℕ) (pins : List GridIx)
    (edge : Side) (spacing : ℕ) : List GridIx :=
  match edge with
  | Side.top =>
      (strideIndices xSegments spacing).foldl (fun ps i => ps ++ [(i, ySegments)]) pins
  | Side.left =>
      (strideIndices ySegments spacing).foldl (fun ps i => ps ++ [(0, i)]) pins
  | Side.bottom =>
      (strideIndices xSegments spacing).foldl (fun ps i => ps ++ [(i, 0)]) pins
  | Side.right =>
      (strideIndices ySegments spacing).foldl (fun ps i => ps ++ [(xSegments, i)]) pins
  | Side.other => pins

/-- The particles selected from one edge, without the accumulator threading
of pinEdge; pinEdge is proved below to append exactly this list. -/
def edgeSelection (xSegments ySegments spacing : ℕ) : Side → List GridIx
  | Side.top => (strideIndices xSegments spacing).map (fun i => (i, ySegments))
  | Side.left => (strideIndices ySegments spacing).map (fun i => (0, i))
  | Side.bottom => (strideIndices xSegments spacing).map (fun i => (i, 0))
  | Side.right => (strideIndices ySegments spacing).map (fun i => (xSegments, i))
  | Side.other => []

/-- The edges option of the pin helper: JS accepts a single string or an
array; the merged default is the empty array. -/
inductive EdgesOpt where
  | str (edge : Side)
  | arr (edges : List Side)
deriving DecidableEq

/-- Normalization of the string-or-array polymorphism of the edges option. -/
def normalizeEdges : EdgesOpt → List Side
  | EdgesOpt.str e => [e]
  | EdgesOpt.arr l => l

/-- The module-level pin helper (source lines 335-350), named pin in the
source; renamed here because the Flag method of the same name delegates to
it.  A string edges option selects one edge, an array is traversed in
order; an empty array, like the default, selects nothing. -/
def pinFn (xSegments ySegments : ℕ) (pins : List GridIx)
    (edges : EdgesOpt) (spacing : Option ℚ) : List GridIx :=
  match edges with
  | EdgesOpt.str e =>
      pinEdge xSegments ySegments pins e (ensureValidSpacing spacing).toNat
  | EdgesOpt.arr l =>
      l.foldl (fun ps e => pinEdge xSegments ySegments ps e
        (ensureValidSpacing spacing).toNat) pins

/-- The full selection added by one pinFn call, as a flat list. -/
def pinSelection (xSegments ySegments : ℕ)
    (edges : EdgesOpt) (spacing : Option ℚ) : List GridIx :=
  (normalizeEdges edges).flatMap
    (edgeSelection xSegments ySegments (ensureValidSpacing spacing).toNat)

/-- Source setLengthConstraints (lines 414-448): anti-stretch constraints.
For a left hoist, rows are traversed bottom row first and inside a row the
constraints run from the hoist (u = 0) toward the fly, pairing u with u + 1.
For a top hoist, columns are traversed and inside a column the constraints
run from the top (v = ySegments) downward, pairing v with v - 1.  Any other
side yields the empty list. -/
def setLengthConstraints (xSegments ySegments : ℕ) (restDistance : ℚ)
    (hoistwardSide : Side) : List LengthConstraint :=
  match hoistwardSide with
  | Side.left =>
      (List.range (ySegments + 1)).flatMap (fun v =>
        (List.range xSegments).map (fun u =>
          { p1 := (u, v), p2 := (u + 1, v), restDistance := restDistance }))
  | Side.top =>
      (List.range (xSegments + 1)).flatMap (fun u =>
        (List.range ySegments).map (fun k =>
          { p1 := (u, ySegments - k), p2 := (u, ySegments - k - 1),
            restDistance := restDistance }))
  | _ => []

/-- The state of a Flag instance: the cloth dimensions and rest distance,
the particle state, the pins array and the lengthConstraints array. -/
structure Flag where
  xSegments : ℕ
  ySegments : ℕ
  restDistance : ℚ
  cloth : ClothState
  pins : List GridIx
  lengthConstraints : List LengthConstraint

/-- The Flag pin method (source lines 405-407): delegate to the module
helper, which appends to the existing pins array. -/
def Flag.pin (st : Flag) (edges : EdgesOpt) (spacing : Option ℚ) : Flag :=
  { st with pins := pinFn st.xSegments st.ySegments st.pins edges spacing }

/-- The Flag unpin method (source lines 409-411): replace pins by a fresh
empty array. -/
def Flag.unpin (st : Flag) : Flag :=
  { st with pins := [] }

/-- The body of the pin loop of Flag.simulate (source lines 461-469): copy
original into position and then copy position into previous, so both end up
at the original rest position. -/
def applyPin (s : ClothState) (a : GridIx) : ClothState :=
  Function.update s a
    { s a with position := (s a).original, previous := (s a).original }

/-- The pin loop of Flag.simulate: the pins array is traversed in order. -/
def pinPhase (pins : List GridIx) (s : ClothState) : ClothState :=
  pins.foldl applyPin s

/-- Modelled from the spec: the FixedConstraint class is not under src/.
Section 4.2 of the spec describes resolve as moving the endpoints along the
segment between them to reduce the distance discrepancy, split by effective
mass: a pinned endpoint has infinite effective mass and does not move, an
unpinned endpoint facing a pinned one absorbs the full correction, and two
unpinned endpoints split it symmetrically.  The numeric magnitude of the
correction involves the Euclidean length, which is not exactly expressible
over the rationals, so it is abstracted into the corr parameter; pinnedness
of a particle is membership in the pins array of the owning flag. -/
def resolveLength (corr : Particle → Particle → ℚ → Vec3)
    (pinned : GridIx → Bool) (c : LengthConstraint) (s : ClothState) : ClothState :=
  let d := corr (s c.p1) (s c.p2) c.restDistance
  if pinned c.p1 then
    if pinned c.p2 then s
    else Function.update s c.p2
      { s c.p2 with position := vadd (s c.p2).position d }
  else if pinned c.p2 then
    Function.update s c.p1
      { s c.p1 with position := vsub (s c.p1).position d }
  else
    let s1 := Function.update s c.p1
      { s c.p1 with position := vsub (s c.p1).position (vscale (1 / 2) d) }
    Function.update s1 c.p2
      { s1 c.p2 with position := vadd (s1 c.p2).position (vscale (1 / 2) d) }

/-- The constraint loop of Flag.simulate (source lines 472-474): resolve
every entry of lengthConstraints in the stored order. -/
def resolvePhase (corr : Particle → Particle → ℚ → Vec3)
    (pinned : GridIx → Bool) (cs : List LengthConstraint)
    (s : ClothState) : ClothState :=
  cs.foldl (fun t c => resolveLength corr pinned c t) s

/-- The Flag simulate method (source lines 454-475).  The cloth simulate
method is not under src/, so the integration step is a parameter clothSim
taking the time step; the correction magnitude of FixedConstraint.resolve is
the parameter corr as in resolveLength. -/
def Flag.simulate (clothSim : ℚ → ClothState → ClothState)
    (corr : Particle → Particle → ℚ → Vec3) (deltaTime : ℚ) (st : Flag) : Flag :=
  { st with
    cloth := resolvePhase corr (fun a => decide (a ∈ st.pins)) st.lengthConstraints
      (pinPhase st.pins (clothSim deltaTime st.cloth)) }

/-- The pin step exactly as the spec words it in section 4.4: for every pin,
force position to original and previous to original, pointwise over the
grid. -/
def specPinStep (pins : List GridIx) (s : ClothState) : ClothState :=
  fun a =>
    if a ∈ pins then
      { s a with position := (s a).original, previous := (s a).original }
    else s a

/-- The per-frame sequence exactly as the spec words it in section 4.4:
first delegate to the cloth simulate, then reapply the pins, then resolve
every length constraint in the stored order. -/
def specSimulateSeq (clothSim : ℚ → ClothState → ClothState)
    (corr : Particle → Particle → ℚ → Vec3) (deltaTime : ℚ) (st : Flag) : Flag :=
  { st with
    cloth := resolvePhase corr (fun a => decide (a ∈ st.pins)) st.lengthConstraints
      (specPinStep st.pins (clothSim deltaTime st.cloth)) }

/-- Concrete particle state for witnesses: every particle rests at the
origin but has been displaced to (1, 2, 3) with previous (4, 5, 6). -/
def wClothState : ClothState :=
  fun _ => { position := (1, 2, 3), previous := (4, 5, 6), original := (0, 0, 0) }

/-- Concrete flag for the witness of the pin invariant: a 1 by 1 grid with
the particle (0, 0) pinned and one length constraint attached to it. -/
def wFlag : Flag :=
  { xSegments := 1
    ySegments := 1
    restDistance := 3 / 25
    cloth := wClothState
    pins := [(0, 0)]
    lengthConstraints := [{ p1 := (0, 0), p2 := (1, 0), restDistance := 3 / 25 }] }

/-- Options with explicit numeric sizes 1.8 by 1.2 and orientation top. -/
def cOptsTop : BuildOptions :=
  { width := SizeOpt.num 1.8
    height := SizeOpt.num 1.2
    hoisting := Hoisting.dexter
    orientation := Side.top
    mass := 0.11
    restDistance := 0.12 }

/-- The same options rotated to orientation left. -/
def cOptsLeft : BuildOptions :=
  { cOptsTop with orientation := Side.left }

theorem foldl_push_eq_append {α β : Type} (g : α → β) :
    ∀ (l : List α) (acc : List β),
      l.foldl (fun ps i => ps ++ [g i]) acc = acc ++ l.map g := by
  intro l
  induction l with
  | nil => intro acc; simp
  | cons a t ih => intro acc; simp [ih]

theorem pinEdge_eq_append (x y : ℕ) (pins : List GridIx) (e : Side) (sp : ℕ) :
    pinEdge x y pins e sp = pins ++ edgeSelection x y sp e := by
  cases e <;> simp [pinEdge, edgeSelection, foldl_push_eq_append]

theorem foldl_pinEdge_eq_append (x y sp : ℕ) :
    ∀ (l : List Side) (pins : List GridIx),
      l.foldl (fun ps e => pinEdge x y ps e sp) pins
        = pins ++ l.flatMap (edgeSelection x y sp) := by
  intro l
  induction l with
  | nil => intro pins; simp
  | cons a t ih =>
      intro pins
      rw [List.foldl_cons, ih, pinEdge_eq_append, List.flatMap_cons,
        List.append_assoc]

theorem pinFn_eq_append (x y : ℕ) (pins : List GridIx)
    (edges : EdgesOpt) (spacing : Option ℚ) :
    pinFn x y pins edges spacing = pins ++ pinSelection x y edges spacing := by
  cases edges with
  | str e => simp [pinFn, pinSelection, normalizeEdges, pinEdge_eq_append]
  | arr l => simp [pinFn, pinSelection, normalizeEdges, foldl_pinEdge_eq_append]

theorem mem_strideIndices (limit sp i : ℕ) (hsp : 1 ≤ sp) :
    i ∈ strideIndices limit sp ↔ ∃ k, i = k * sp ∧ i ≤ limit := by
  unfold strideIndices
  simp only [List.mem_map, List.mem_range]
  constructor
  · rintro ⟨k, hk, rfl⟩
    refine ⟨k, rfl, ?_⟩
    have hkle : k ≤ limit / sp := Nat.lt_succ_iff.mp hk
    calc k * sp ≤ limit / sp * sp := Nat.mul_le_mul_right sp hkle
      _ ≤ limit := Nat.div_mul_le_self limit sp
  · rintro ⟨k, rfl, hle⟩
    exact ⟨k, Nat.lt_succ_of_le ((Nat.le_div_iff_mul_le hsp).mpr hle), rfl⟩

theorem mem_edgeSelection_top (x y sp i j : ℕ) (hsp : 1 ≤ sp) :
    (i, j) ∈ edgeSelection x y sp Side.top
      ↔ (∃ k, i = k * sp ∧ i ≤ x) ∧ j = y := by
  simp only [edgeSelection, List.mem_map]
  constructor
  · rintro ⟨a, ha, heq⟩
    obtain ⟨rfl, rfl⟩ : a = i ∧ y = j := by simpa [Prod.ext_iff] using heq
    exact ⟨(mem_strideIndices x sp a hsp).mp ha, rfl⟩
  · rintro ⟨hk, rfl⟩
    exact ⟨i, (mem_strideIndices x sp i hsp).mpr hk, rfl⟩

theorem mem_edgeSelection_bottom (x y sp i j : ℕ) (hsp : 1 ≤ sp) :
    (i, j) ∈ edgeSelection x y sp Side.bottom
      ↔ (∃ k, i = k * sp ∧ i ≤ x) ∧ j = 0 := by
  simp only [edgeSelection, List.mem_map]
  constructor
  · rintro ⟨a, ha, heq⟩
    obtain ⟨rfl, rfl⟩ : a = i ∧ 0 = j := by simpa [Prod.ext_iff] using heq
    exact ⟨(mem_strideIndices x sp a hsp).mp ha, rfl⟩
  · rintro ⟨hk, rfl⟩
    exact ⟨i, (mem_strideIndices x sp i hsp).mpr hk, rfl⟩

theorem mem_edgeSelection_left (x y sp i j : ℕ) (hsp : 1 ≤ sp) :
    (i, j) ∈ edgeSelection x y sp Side.left
      ↔ i = 0 ∧ (∃ k, j = k * sp ∧ j ≤ y) := by
  simp only [edgeSelection, List.mem_map]
  constructor
  · rintro ⟨a, ha, heq⟩
    obtain ⟨rfl, rfl⟩ : (0 : ℕ) = i ∧ a = j := by simpa [Prod.ext_iff] using heq
    exact ⟨rfl, (mem_strideIndices y sp a hsp).mp ha⟩
  · rintro ⟨rfl, hk⟩
    exact ⟨j, (mem_strideIndices y sp j hsp).mpr hk, rfl⟩

theorem mem_edgeSelection_right (x y sp i j : ℕ) (hsp : 1 ≤ sp) :
    (i, j) ∈ edgeSelection x y sp Side.right
      ↔ i = x ∧ (∃ k, j = k * sp ∧ j ≤ y) := by
  simp only [edgeSelection, List.mem_map]
  constructor
  · rintro ⟨a, ha, heq⟩
    obtain ⟨rfl, rfl⟩ : x = i ∧ a = j := by simpa [Prod.ext_iff] using heq
    exact ⟨rfl, (mem_strideIndices y sp a hsp).mp ha⟩
  · rintro ⟨rfl, hk⟩
    exact ⟨j, (mem_strideIndices y sp j hsp).mpr hk, rfl⟩

theorem count_flatMap {α β : Type} [BEq β] (f : α → List β) (p : β) :
    ∀ l : List α,
      List.count p (l.flatMap f) = (l.map (fun a => List.count p (f a))).sum := by
  intro l
  induction l with
  | nil => simp
  | cons a t ih => simp [ih]

theorem ratFloor_eq_intFloor (q : ℚ) : Rat.floor q = ⌊q⌋ :=
  (Rat.floor_def' q).trans Rat.floor_def.symm

/-- Claim C8: the effective pin spacing is a positive integer; a numeric
spacing of at least 1 is floored, any other spacing falls back to the
default 1, and the edge loops select exactly the multiples of the spacing,
starting from index 0, that stay on the edge. -/
theorem C8_spacing_policy :
    (∀ q : ℚ, 1 ≤ q → ensureValidSpacing (some q) = ⌊q⌋)
    ∧ (∀ q : ℚ, q < 1 → ensureValidSpacing (some q) = 1)
    ∧ ensureValidSpacing none = 1
    ∧ (∀ s : Option ℚ, 1 ≤ ensureValidSpacing s)
    ∧ (∀ limit sp i : ℕ, 1 ≤ sp →
        (i ∈ strideIndices limit sp ↔ ∃ k, i = k * sp ∧ i ≤ limit))
    ∧ (∀ x y sp i j : ℕ, 1 ≤ sp →
        ((i, j) ∈ edgeSelection x y sp Side.top
            ↔ (∃ k, i = k * sp ∧ i ≤ x) ∧ j = y)
        ∧ ((i, j) ∈ edgeSelection x y sp Side.bottom
            ↔ (∃ k, i = k * sp ∧ i ≤ x) ∧ j = 0)
        ∧ ((i, j) ∈ edgeSelection x y sp Side.left
            ↔ i = 0 ∧ (∃ k, j = k * sp ∧ j ≤ y))
        ∧ ((i, j) ∈ edgeSelection x y sp Side.right
            ↔ i = x ∧ (∃ k, j = k * sp ∧ j ≤ y))) := by
  refine ⟨?_, ?_, rfl, ?_, ?_, ?_⟩
  · intro q h
    simp [ensureValidSpacing, if_pos h, ratFloor_eq_intFloor]
  · intro q h
    simp [ensureValidSpacing, if_neg (not_le.mpr h)]
  · intro s
    cases s with
    | none => simp [ensureValidSpacing]
    | some q =>
        by_cases h : 1 ≤ q
        · simp only [ensureValidSpacing, if_pos h, ratFloor_eq_intFloor]
          exact Int.le_floor.mpr (by exact_mod_cast h)
        · simp [ensureValidSpacing, if_neg h]
  · intro limit sp i hsp
    exact mem_strideIndices limit sp i hsp
  · intro x y sp i j hsp
    exact ⟨mem_edgeSelection_top x y sp i j hsp,
      mem_edgeSelection_bottom x y sp i j hsp,
      mem_edgeSelection_left x y sp i j hsp,
      mem_edgeSelection_right x y sp i j hsp⟩

/-- Witness for C8 at concrete inputs: a fractional spacing of 5/2 is
floored to 2, and index 4 = 2 * 2 is selected on an edge of 5 segments. -/
theorem C8_spacing_policy_witness :
    ensureValidSpacing (some ((5 : ℚ) / 2)) = ⌊(5 : ℚ) / 2⌋
    ∧ (4 ∈ strideIndices 5 2 ↔ ∃ k, 4 = k * 2 ∧ 4 ≤ 5)
    ∧ ((4, 9) ∈ edgeSelection 5 9 2 Side.top
        ↔ (∃ k, 4 = k * 2 ∧ 4 ≤ 5) ∧ 9 = 9) :=
  ⟨C8_spacing_policy.1 ((5 : ℚ) / 2) (by norm_num),
   C8_spacing_policy.2.2.2.2.1 5 2 4 (by norm_num),
   (C8_spacing_policy.2.2.2.2.2 5 9 2 4 9 (by norm_num)).1⟩

/-- Claim C9: an unrecognized edge value adds no particles and does not
disturb the processing of the recognized edges around it. -/
theorem C9_unrecognized_edge (x y sp : ℕ) (pins : List GridIx)
    (spacing : Option ℚ) (es1 es2 : List Side) :
    pinEdge x y pins Side.other sp = pins
    ∧ pinFn x y pins (EdgesOpt.arr (es1 ++ Side.other :: es2)) spacing
        = pinFn x y pins (EdgesOpt.arr (es1 ++ es2)) spacing := by
  refine ⟨rfl, ?_⟩
  rw [pinFn_eq_append, pinFn_eq_append]
  simp [pinSelection, normalizeEdges, edgeSelection]

/-- Claim C10: Flag.pin appends the newly selected particles to the
existing pins list, leaving everything else untouched, and only
Flag.unpin empties the list. -/
theorem C10_pin_accumulative (st : Flag) (edges : EdgesOpt) (spacing : Option ℚ) :
    (Flag.pin st edges spacing).pins
        = st.pins ++ pinSelection st.xSegments st.ySegments edges spacing
    ∧ (Flag.pin st edges spacing).cloth = st.cloth
    ∧ (Flag.pin st edges spacing).lengthConstraints = st.lengthConstraints
    ∧ (Flag.unpin st).pins = [] :=
  ⟨pinFn_eq_append st.xSegments st.ySegments st.pins edges spacing, rfl, rfl, rfl⟩

/-- Counterexample to claim C5: on a 2 by 2 grid, pinning the top and left
edges together pushes the shared corner (0, 2) twice, not exactly once. -/
theorem C5_counterexample :
    List.count ((0, 2) : GridIx)
        (pinFn 2 2 [] (EdgesOpt.arr [Side.top, Side.left]) (some 1)) = 2
    ∧ List.count ((0, 2) : GridIx)
        (pinFn 2 2 [] (EdgesOpt.arr [Side.top, Side.left]) (some 1)) ≠ 1 := by
  constructor <;> decide

/-- Claim C5 as amended: a particle lying on several selected edges is
pushed once for each such edge; the multiplicity of a particle in the
resulting pins list is its old multiplicity plus the sum, over the selected
edges in order, of its occurrences on that edge.  No deduplication takes
place. -/
theorem C5_count_per_edge (x y : ℕ) (pins : List GridIx) (edges : List Side)
    (spacing : Option ℚ) (p : GridIx) :
    List.count p (pinFn x y pins (EdgesOpt.arr edges) spacing)
      = List.count p pins
        + (edges.map (fun e => List.count p
            (edgeSelection x y (ensureValidSpacing spacing).toNat e))).sum := by
  rw [pinFn_eq_append]
  simp only [pinSelection, normalizeEdges]
  rw [List.count_append, count_flatMap]

theorem pairwise_lt_range_strong :
    ∀ n : ℕ, (List.range n).Pairwise (fun a b => a < b ∧ b < n) := by
  intro n
  induction n with
  | zero => simp
  | succ n ih =>
      rw [List.range_succ, List.pairwise_append]
      refine ⟨ih.imp (fun h => ⟨h.1, Nat.lt_succ_of_lt h.2⟩), by simp, ?_⟩
      intro a ha b hb
      simp only [List.mem_singleton] at hb
      subst hb
      simp only [List.mem_range] at ha
      exact ⟨ha, Nat.lt_succ_self b⟩

theorem pairwise_flatMap {α β : Type} {R : α → α → Prop} {f : β → List α} :
    ∀ l : List β, (∀ b, b ∈ l → (f b).Pairwise R) →
      l.Pairwise (fun b c => ∀ u, u ∈ f b → ∀ v, v ∈ f c → R u v) →
      (l.flatMap f).Pairwise R := by
  intro l
  induction l with
  | nil => intro h1 h2; simp
  | cons a t ih =>
      intro h1 h2
      rw [List.flatMap_cons, List.pairwise_append]
      rw [List.pairwise_cons] at h2
      refine ⟨h1 a (List.mem_cons_self a t),
        ih (fun b hb => h1 b (List.mem_cons_of_mem a hb)) h2.2, ?_⟩
      intro u hu v hv
      obtain ⟨b, hb, hvb⟩ := List.mem_flatMap.mp hv
      exact h2.1 b hb u hu v hvb

/-- Claim C3: setLengthConstraints builds direct-neighbor pairs along the
axis perpendicular to the pinned edge with target length restDistance, and
orders them hoist first: for a left hoist the stored order runs hoist to fly
(increasing u) within each row, and for a top hoist it runs top to bottom
(decreasing v, the top being v = ySegments) within each column. -/
theorem C3_length_constraints_order (xSeg ySeg : ℕ) (rest : ℚ) :
    (∀ c : LengthConstraint,
        c ∈ setLengthConstraints xSeg ySeg rest Side.left
          ↔ ∃ u v : ℕ, u < xSeg ∧ v ≤ ySeg
              ∧ c = { p1 := (u, v), p2 := (u + 1, v), restDistance := rest })
    ∧ (setLengthConstraints xSeg ySeg rest Side.left).Pairwise
        (fun c c2 => c.p1.2 = c2.p1.2 → c.p1.1 < c2.p1.1)
    ∧ (∀ c : LengthConstraint,
        c ∈ setLengthConstraints xSeg ySeg rest Side.top
          ↔ ∃ u v : ℕ, u ≤ xSeg ∧ 1 ≤ v ∧ v ≤ ySeg
              ∧ c = { p1 := (u, v), p2 := (u, v - 1), restDistance := rest })
    ∧ (setLengthConstraints xSeg ySeg rest Side.top).Pairwise
        (fun c c2 => c.p1.1 = c2.p1.1 → c2.p1.2 < c.p1.2) := by
  refine ⟨?_, ?_, ?_, ?_⟩
  · intro c
    simp only [setLengthConstraints, List.mem_flatMap, List.mem_map,
      List.mem_range]
    constructor
    · rintro ⟨v, hv, u, hu, rfl⟩
      exact ⟨u, v, hu, Nat.lt_succ_iff.mp hv, rfl⟩
    · rintro ⟨u, v, hu, hv, rfl⟩
      exact ⟨v, Nat.lt_succ_of_le hv, u, hu, rfl⟩
  · apply pairwise_flatMap
    · intro v hv
      rw [List.pairwise_map]
      apply (pairwise_lt_range_strong xSeg).imp
      intro a b h heq
      exact h.1
    · apply (pairwise_lt_range_strong (ySeg + 1)).imp
      intro a b h u hu v hv
      simp only [List.mem_map, List.mem_range] at hu hv
      obtain ⟨w1, hw1, rfl⟩ := hu
      obtain ⟨w2, hw2, rfl⟩ := hv
      intro heq
      have hab : a = b := heq
      omega
  · intro c
    simp only [setLengthConstraints, List.mem_flatMap, List.mem_map,
      List.mem_range]
    constructor
    · rintro ⟨u, hu, k, hk, rfl⟩
      exact ⟨u, ySeg - k, by omega, by omega, by omega, rfl⟩
    · rintro ⟨u, v, hu, hv1, hv2, rfl⟩
      refine ⟨u, by omega, ySeg - v, by omega, ?_⟩
      have hvv : ySeg - (ySeg - v) = v := by omega
      rw [hvv]
  · apply pairwise_flatMap
    · intro u hu
      rw [List.pairwise_map]
      apply (pairwise_lt_range_strong ySeg).imp
      intro a b h heq
      show ySeg - b < ySeg - a
      omega
    · apply (pairwise_lt_range_strong (xSeg + 1)).imp
      intro a b h u hu v hv
      simp only [List.mem_map, List.mem_range] at hu hv
      obtain ⟨k1, hk1, rfl⟩ := hu
      obtain ⟨k2, hk2, rfl⟩ := hv
      intro heq
      have hab : a = b := heq
      omega

theorem applyPin_apply (s : ClothState) (a b : GridIx) :
    applyPin s a b
      = if b = a then
          { s a with position := (s a).original, previous := (s a).original }
        else s b := by
  by_cases h : b = a
  · subst h
    simp [applyPin]
  · simp [applyPin, Function.update_noteq h, h]

theorem pinPhase_original :
    ∀ (l : List GridIx) (s : ClothState) (a : GridIx),
      ((pinPhase l s) a).original = (s a).original := by
  intro l
  induction l with
  | nil => intro s a; rfl
  | cons x t ih =>
      intro s a
      show ((pinPhase t (applyPin s x)) a).original = (s a).original
      rw [ih (applyPin s x) a, applyPin_apply]
      by_cases h : a = x <;> simp [h]

theorem pinPhase_not_mem :
    ∀ (l : List GridIx) (s : ClothState) (a : GridIx), a ∉ l →
      (pinPhase l s) a = s a := by
  intro l
  induction l with
  | nil => intro s a h; rfl
  | cons x t ih =>
      intro s a h
      show (pinPhase t (applyPin s x)) a = s a
      have hx : a ≠ x := fun he => h (by rw [he]; exact List.mem_cons_self x t)
      rw [ih (applyPin s x) a (fun ht => h (List.mem_cons_of_mem x ht)),
        applyPin_apply]
      simp [hx]

theorem pinPhase_mem :
    ∀ (l : List GridIx) (s : ClothState) (a : GridIx), a ∈ l →
      (pinPhase l s) a
        = { position := (s a).original, previous := (s a).original,
            original := (s a).original } := by
  intro l
  induction l with
  | nil => intro s a h; cases h
  | cons x t ih =>
      intro s a h
      show (pinPhase t (applyPin s x)) a = _
      by_cases ht : a ∈ t
      · rw [ih (applyPin s x) a ht, applyPin_apply]
        by_cases hax : a = x <;> simp [hax]
      · have hax : a = x := by
          rcases List.mem_cons.mp h with h1 | h2
          · exact h1
          · exact absurd h2 ht
        rw [pinPhase_not_mem t (applyPin s x) a ht, applyPin_apply, if_pos hax]
        subst hax
        rfl

theorem resolveLength_pinned (corr : Particle → Particle → ℚ → Vec3)
    (pinned : GridIx → Bool) (c : LengthConstraint) (s : ClothState)
    (a : GridIx) (h : pinned a = true) :
    resolveLength corr pinned c s a = s a := by
  unfold resolveLength
  by_cases h1 : pinned c.p1 = true
  · by_cases h2 : pinned c.p2 = true
    · simp [h1, h2]
    · have hne : a ≠ c.p2 := fun he => h2 (he ▸ h)
      simp [h1, h2, Function.update_noteq hne]
  · have hne1 : a ≠ c.p1 := fun he => h1 (he ▸ h)
    by_cases h2 : pinned c.p2 = true
    · simp [h1, h2, Function.update_noteq hne1]
    · have hne2 : a ≠ c.p2 := fun he => h2 (he ▸ h)
      simp [h1, h2, Function.update_noteq hne2, Function.update_noteq hne1]

theorem resolvePhase_pinned (corr : Particle → Particle → ℚ → Vec3)
    (pinned : GridIx → Bool) (a : GridIx) (h : pinned a = true) :
    ∀ (cs : List LengthConstraint) (s : ClothState),
      (resolvePhase corr pinned cs s) a = s a := by
  intro cs
  induction cs with
  | nil => intro s; rfl
  | cons c t ih =>
      intro s
      show (resolvePhase corr pinned t (resolveLength corr pinned c s)) a = s a
      rw [ih (resolveLength corr pinned c s),
        resolveLength_pinned corr pinned c s a h]

theorem pinPhase_eq_specPinStep (pins : List GridIx) (s : ClothState) :
    pinPhase pins s = specPinStep pins s := by
  funext a
  by_cases h : a ∈ pins
  · rw [pinPhase_mem pins s a h]
    simp only [specPinStep, if_pos h]
  · rw [pinPhase_not_mem pins s a h]
    simp only [specPinStep, if_neg h]

/-- Claim C2: every Flag.simulate call performs exactly the sequence the
spec describes: first delegate to the cloth simulate, then set position and
previous of every pin to the original rest position, then resolve every
length constraint in the stored order; the pin and constraint configuration
itself is left unchanged. -/
theorem C2_simulate_sequence (clothSim : ℚ → ClothState → ClothState)
    (corr : Particle → Particle → ℚ → Vec3) (dt : ℚ) (st : Flag) :
    Flag.simulate clothSim corr dt st = specSimulateSeq clothSim corr dt st
    ∧ (Flag.simulate clothSim corr dt st).pins = st.pins
    ∧ (Flag.simulate clothSim corr dt st).lengthConstraints
        = st.lengthConstraints := by
  refine ⟨?_, rfl, rfl⟩
  unfold Flag.simulate specSimulateSeq
  rw [pinPhase_eq_specPinStep]

/-- Claim C1: at the end of every Flag.simulate call, every particle in the
pins list sits at its original rest position, and its previous position
equals it too, for every cloth integration step that leaves the original
field alone, every correction rule, every time step and every constraint
list. -/
theorem C1_pin_invariant (clothSim : ℚ → ClothState → ClothState)
    (corr : Particle → Particle → ℚ → Vec3) (dt : ℚ) (st : Flag)
    (horig : ∀ (d : ℚ) (s : ClothState) (a : GridIx),
      (clothSim d s a).original = (s a).original)
    (a : GridIx) (ha : a ∈ st.pins) :
    ((Flag.simulate clothSim corr dt st).cloth a).position
        = ((st.cloth) a).original
    ∧ ((Flag.simulate clothSim corr dt st).cloth a).previous
        = ((st.cloth) a).original := by
  have hpin : (fun b => decide (b ∈ st.pins)) a = true := decide_eq_true ha
  have h1 : (Flag.simulate clothSim corr dt st).cloth
      = resolvePhase corr (fun b => decide (b ∈ st.pins)) st.lengthConstraints
          (pinPhase st.pins (clothSim dt st.cloth)) := rfl
  rw [h1,
    resolvePhase_pinned corr (fun b => decide (b ∈ st.pins)) a hpin
      st.lengthConstraints (pinPhase st.pins (clothSim dt st.cloth)),
    pinPhase_mem st.pins (clothSim dt st.cloth) a ha,
    horig dt st.cloth a]
  exact ⟨rfl, rfl⟩

/-- Witness for C1: the identity cloth step and a constant correction on
the concrete flag wFlag, whose particle (0, 0) is pinned; after simulate it
sits at its original rest position. -/
theorem C1_pin_invariant_witness :
    ((Flag.simulate (fun _ s => s) (fun _ _ _ => (1, 0, 0)) (1 / 60)
        wFlag).cloth (0, 0)).position = ((wFlag.cloth) (0, 0)).original
    ∧ ((Flag.simulate (fun _ s => s) (fun _ _ _ => (1, 0, 0)) (1 / 60)
        wFlag).cloth (0, 0)).previous = ((wFlag.cloth) (0, 0)).original :=
  C1_pin_invariant (fun _ s => s) (fun _ _ _ => (1, 0, 0)) (1 / 60) wFlag
    (fun _ _ _ => rfl) (0, 0) (by decide)

/-- Claim C6: the cloth is built with max of 1 and the rounded quotient of
each extent by the rest distance as segment counts, each at least 1; for
width 1.8, height 1.2 and rest distance 0.12 this gives 15 by 10 segments
and a 16 by 11 particle grid. -/
theorem C6_segment_counts (w h m : ℚ) :
    (∀ r : ℚ, (buildCloth w h m r).xSegments = max 1 (round (w / r))
      ∧ (buildCloth w h m r).ySegments = max 1 (round (h / r))
      ∧ 1 ≤ (buildCloth w h m r).xSegments
      ∧ 1 ≤ (buildCloth w h m r).ySegments)
    ∧ (buildCloth 1.8 1.2 m 0.12).xSegments = 15
    ∧ (buildCloth 1.8 1.2 m 0.12).ySegments = 10
    ∧ (buildCloth 1.8 1.2 m 0.12).xSegments + 1 = 16
    ∧ (buildCloth 1.8 1.2 m 0.12).ySegments + 1 = 11
    ∧ clothParticleCount (buildCloth 1.8 1.2 m 0.12) = 16 * 11 := by
  have hx : (buildCloth 1.8 1.2 m 0.12).xSegments = 15 := by
    show max 1 (round ((1.8 : ℚ) / 0.12)) = 15
    rw [show round ((1.8 : ℚ) / 0.12) = 15 from by norm_num]
    decide
  have hy : (buildCloth 1.8 1.2 m 0.12).ySegments = 10 := by
    show max 1 (round ((1.2 : ℚ) / 0.12)) = 10
    rw [show round ((1.2 : ℚ) / 0.12) = 10 from by norm_num]
    decide
  refine ⟨fun r => ⟨rfl, rfl, le_max_left 1 _, le_max_left 1 _⟩,
    hx, hy, ?_, ?_, ?_⟩
  · rw [hx]; decide
  · rw [hy]; decide
  · show ((buildCloth 1.8 1.2 m 0.12).xSegments + 1)
        * ((buildCloth 1.8 1.2 m 0.12).ySegments + 1) = 16 * 11
    rw [hx, hy]; decide

/-- Counterexample to claim C7: a zero rest distance is neither rejected
nor clamped; the division in the segment computation yields a non-finite
count (modelled as none), which is what reaches the Cloth constructor. -/
theorem C7_counterexample :
    jsSegmentCount 1.8 0 = none
    ∧ ¬ ∃ n : ℤ, jsSegmentCount 1.8 0 = some n := by
  constructor
  · rfl
  · rintro ⟨n, hn⟩
    simp [jsSegmentCount] at hn

/-- Claim C7 as amended: only the segment counts are clamped, to a minimum
of 1, and only for a nonzero rest distance is the computed count finite; a
zero rest distance is not rejected and produces a non-finite count. -/
theorem C7_nonzero_rest_clamped (w h m r : ℚ) (hr : r ≠ 0) :
    jsSegmentCount w r = some ((buildCloth w h m r).xSegments)
    ∧ jsSegmentCount h r = some ((buildCloth w h m r).ySegments)
    ∧ 1 ≤ (buildCloth w h m r).xSegments
    ∧ 1 ≤ (buildCloth w h m r).ySegments := by
  refine ⟨?_, ?_, le_max_left 1 _, le_max_left 1 _⟩
  · simp [jsSegmentCount, hr, buildCloth]
  · simp [jsSegmentCount, hr, buildCloth]

/-- Witness for C7 as amended, at the default sizes and rest distance. -/
theorem C7_nonzero_rest_clamped_witness :
    jsSegmentCount 1.8 0.12 = some ((buildCloth 1.8 1.2 0.11 0.12).xSegments)
    ∧ 1 ≤ (buildCloth 1.8 1.2 0.11 0.12).xSegments :=
  ⟨(C7_nonzero_rest_clamped 1.8 1.2 0.11 0.12 (by norm_num)).1,
   (C7_nonzero_rest_clamped 1.8 1.2 0.11 0.12 (by norm_num)).2.2.1⟩

/-- Counterexample to claim C4: with explicit numeric sizes 1.8 by 1.2 and
the default rest distance, rotating the orientation from top to left swaps
the extents fed to buildCloth, so the cloth grid changes from 15 by 10
segments to 10 by 15: the orientation option does reach the solver
geometry. -/
theorem C4_counterexample :
    (buildFlagCloth none cOptsLeft).xSegments = 10
    ∧ (buildFlagCloth none cOptsLeft).ySegments = 15
    ∧ (buildFlagCloth none cOptsTop).xSegments = 15
    ∧ (buildFlagCloth none cOptsTop).ySegments = 10
    ∧ buildFlagCloth none cOptsLeft ≠ buildFlagCloth none cOptsTop := by
  have hscale : min (1 : ℚ) (maxSize / max 1.8 1.2) = 1 := by
    rw [show max (1.8 : ℚ) 1.2 = 1.8 from max_eq_left (by norm_num)]
    rw [maxSize]
    exact min_eq_left (by norm_num)
  have hL : buildFlagCloth none cOptsLeft = buildCloth 1.2 1.8 0.11 0.12 := by
    show buildCloth (1.2 * min 1 (maxSize / max 1.8 1.2))
        (1.8 * min 1 (maxSize / max 1.8 1.2)) 0.11 0.12
      = buildCloth 1.2 1.8 0.11 0.12
    rw [hscale, mul_one, mul_one]
  have hT : buildFlagCloth none cOptsTop = buildCloth 1.8 1.2 0.11 0.12 := by
    show buildCloth (1.8 * min 1 (maxSize / max 1.8 1.2))
        (1.2 * min 1 (maxSize / max 1.8 1.2)) 0.11 0.12
      = buildCloth 1.8 1.2 0.11 0.12
    rw [hscale, mul_one, mul_one]
  have h12 : (buildCloth 1.2 1.8 0.11 0.12).xSegments = 10 := by
    show max 1 (round ((1.2 : ℚ) / 0.12)) = 10
    rw [show round ((1.2 : ℚ) / 0.12) = 10 from by norm_num]
    decide
  have h18 : (buildCloth 1.2 1.8 0.11 0.12).ySegments = 15 := by
    show max 1 (round ((1.8 : ℚ) / 0.12)) = 15
    rw [show round ((1.8 : ℚ) / 0.12) = 15 from by norm_num]
    decide
  have h18x : (buildCloth 1.8 1.2 0.11 0.12).xSegments = 15 := by
    show max 1 (round ((1.8 : ℚ) / 0.12)) = 15
    rw [show round ((1.8 : ℚ) / 0.12) = 15 from by norm_num]
    decide
  have h12y : (buildCloth 1.8 1.2 0.11 0.12).ySegments = 10 := by
    show max 1 (round ((1.2 : ℚ) / 0.12)) = 10
    rw [show round ((1.2 : ℚ) / 0.12) = 10 from by norm_num]
    decide
  refine ⟨by rw [hL]; exact h12, by rw [hL]; exact h18,
    by rw [hT]; exact h18x, by rw [hT]; exact h12y, ?_⟩
  intro he
  have hx : (buildFlagCloth none cOptsLeft).xSegments
      = (buildFlagCloth none cOptsTop).xSegments := by rw [he]
  rw [hL, hT, h12, h18x] at hx
  exact absurd hx (by decide)

/-- Claim C4 as amended: the hoisting option never affects the cloth, and
bottom builds the same cloth as top, right the same as left; but a left or
right orientation swaps the extents handed to buildCloth relative to top or
bottom, transposing the segment counts.  Orientation therefore does reach
the solver geometry, while only the mirroring flag is texture-only. -/
theorem C4_orientation_swaps_grid (element : Option (ℚ × ℚ))
    (opts : BuildOptions) :
    (buildFlagCloth element { opts with orientation := Side.left }).xSegments
      = (buildFlagCloth element { opts with orientation := Side.top }).ySegments
    ∧ (buildFlagCloth element { opts with orientation := Side.left }).ySegments
      = (buildFlagCloth element { opts with orientation := Side.top }).xSegments
    ∧ buildFlagCloth element { opts with orientation := Side.bottom }
      = buildFlagCloth element { opts with orientation := Side.top }
    ∧ buildFlagCloth element { opts with orientation := Side.right }
      = buildFlagCloth element { opts with orientation := Side.left }
    ∧ (∀ hv : Hoisting, buildFlagCloth element { opts with hoisting := hv }
        = buildFlagCloth element opts) :=
  ⟨rfl, rfl, rfl, rfl, fun _ => rfl⟩

end FlagWaver
